import Mathlib

/-!
# Verification of the goctxid correlation-ID library

A shallow embedding of the core of the `goctxid` Go library: the
context-based identifier store (`NewContext` / `FromContext` /
`MustFromContext`), the counter-based `FastGenerator`, the configuration
merge `configDefault`, and the request pipeline of the fiber, gin and
fibernative middleware adapters.

Go values are modelled as follows: `context.Context` becomes an inductive
chain of `withValue` nodes over `background`; context keys carry their Go
type so that the package-private key type cannot collide with foreign
keys; `interface\x7b\x7d` values stored in a context are either strings or
opaque non-string values; byte buffers are lists of naturals below 256;
`uint64` arithmetic is `Nat` arithmetic taken modulo `2 ^ 64`.
-/

namespace Goctxid

/-- A Go context key: values of the package-private type
`correlationIDKey` (a defined string type) are distinguished by the Go
runtime from every key of any other type, which we model with the
`other` constructor carrying a type tag. -/
inductive Key where
  | correlationID (s : String)
  | other (tag : Nat) (s : String)
deriving DecidableEq, Repr

/-- A value stored in a context under some key: a Go string, or any
non-string value (tagged opaquely). -/
inductive GoValue where
  | str (s : String)
  | nonString (tag : Nat)
deriving DecidableEq, Repr

/-- `ctxKey correlationIDKey = "goctxid_key"` — the private key the
package stores the correlation ID under (src/goctxid.go line 18). -/
def ctxKey : Key := Key.correlationID "goctxid_key"

/-- `DefaultHeaderKey = "X-Correlation-ID"` (src/goctxid.go line 15). -/
def DefaultHeaderKey : String := "X-Correlation-ID"

/-- A Go `context.Context`: `context.Background()` or a
`context.WithValue` derivation. -/
inductive Context where
  | background
  | withValue (parent : Context) (k : Key) (v : GoValue)
deriving DecidableEq, Repr

/-- `ctx.Value(k)`: walk the derivation chain outward, returning the
value of the innermost node whose key equals `k`. -/
def Context.value : Context → Key → Option GoValue
  | .background, _ => none
  | .withValue parent k v, q => if q = k then some v else parent.value q

/-- `FromContext` (src/goctxid.go lines 40-43):
`id, ok := ctx.Value(ctxKey).(string); return id, ok`.  The type
assertion yields `("", false)` when the slot is empty or holds a
non-string value. -/
def FromContext (ctx : Context) : String × Bool :=
  match ctx.value ctxKey with
  | some (GoValue.str s) => (s, true)
  | _ => ("", false)

/-- `MustFromContext` (src/goctxid.go lines 46-49): drop the boolean. -/
def MustFromContext (ctx : Context) : String :=
  (FromContext ctx).1

/-- `NewContext` (src/goctxid.go lines 73-75):
`context.WithValue(ctx, ctxKey, id)`. -/
def NewContext (ctx : Context) (id : String) : Context :=
  Context.withValue ctx ctxKey (GoValue.str id)

/-! ## Fast generator (src/Makefile, goctxid.go half, lines 94-161) -/

/-- `binary.LittleEndian.Uint64`: little-endian value of a byte list
(byte `i` contributes `b * 256 ^ i`).  The Go call reads exactly 8
bytes; we apply this to `seed.take 8`. -/
def leUint64 : List Nat → Nat
  | [] => 0
  | b :: rest => b + 256 * leUint64 rest

/-- `binary.LittleEndian.PutUint64`: the 8 little-endian bytes of a
`uint64`, byte `i` being `x >> (8 * i)` truncated to a byte. -/
def putUint64LE (x : Nat) : List Nat :=
  [x % 256, x / 256 % 256, x / 65536 % 256, x / 16777216 % 256,
   x / 4294967296 % 256, x / 1099511627776 % 256,
   x / 281474976710656 % 256, x / 72057594037927936 % 256]

/-- The sixteen lowercase hexadecimal digit characters, in value order
(Go strconv's lowercase hex table). -/
def hexDigits : List Char :=
  "0123456789abcdef".data

/-- The lowercase hexadecimal digit of a nibble value. -/
def hexDigit (n : Nat) : Char :=
  hexDigits.getD n '0'

/-- Go `%x` on a byte slice: each byte becomes two lowercase hex
digits, high nibble first. -/
def bytesHex : List Nat → List Char
  | [] => []
  | b :: bs => hexDigit (b / 16) :: hexDigit (b % 16) :: bytesHex bs

/-- Go slice expression `bs[lo:hi]`. -/
def sliceBytes (bs : List Nat) (lo hi : Nat) : List Nat :=
  (bs.drop lo).take (hi - lo)

/-- `fmt.Sprintf("%x-%x-%x-%x-%x", id[0:4], id[4:6], id[6:8], id[8:10],
id[10:16])` — the format step of `FastGenerator` (src/Makefile lines
155-160). -/
def formatUUID (id : List Nat) : String :=
  String.mk (bytesHex (sliceBytes id 0 4) ++
    '-' :: (bytesHex (sliceBytes id 4 6) ++
      '-' :: (bytesHex (sliceBytes id 6 8) ++
        '-' :: (bytesHex (sliceBytes id 8 10) ++
          '-' :: bytesHex (sliceBytes id 10 16)))))

/-- The fast generator's process-wide state: the 24-byte random seed
`fastGenSeed` and the `uint64` counter `fastGenCounter`. -/
structure FastGenState where
  seed : List Nat
  counter : Nat
deriving DecidableEq, Repr

/-- A well-formed seed: 24 bytes, each below 256 (what `rand.Read`
produces into `fastGenSeed`). -/
@[reducible]
def ValidSeed (seed : List Nat) : Prop :=
  seed.length = 24 ∧ ∀ b ∈ seed, b < 256

/-- `initFastGenerator` (src/Makefile lines 104-109): the counter starts
as the little-endian value of the seed's first 8 bytes. -/
def initFastGenerator (seed : List Nat) : FastGenState :=
  { seed := seed, counter := leUint64 (seed.take 8) }

/-- One call of `FastGenerator` after initialization (src/Makefile lines
141-161): atomically post-increment the counter (wrapping `uint64`
arithmetic), copy the seed into a working buffer, overwrite its first 8
bytes with the counter little-endian, and format the buffer. -/
def fastGeneratorStep (st : FastGenState) : String × FastGenState :=
  let x := (st.counter + 1) % 2 ^ 64
  let id := putUint64LE x ++ st.seed.drop 8
  (formatUUID id, { st with counter := x })

/-- The state after the first `n` sequential calls of `FastGenerator`
(state `0` is the state right after one-time initialization). -/
def fastGenRun (seed : List Nat) : Nat → FastGenState
  | 0 => initFastGenerator seed
  | n + 1 => (fastGeneratorStep (fastGenRun seed n)).2

/-- The string returned by the `n`-th sequential call of
`FastGenerator` (`n ≥ 1`). -/
def fastGenNthOutput (seed : List Nat) (n : Nat) : String :=
  (fastGeneratorStep (fastGenRun seed (n - 1))).1

/-- Value of a lowercase hex digit character (index in `hexDigits`). -/
def hexVal (c : Char) : Nat :=
  hexDigits.indexOf c

/-- Decode a list of hex characters two at a time back into bytes. -/
def hexPairsToBytes : List Char → List Nat
  | c1 :: c2 :: rest => (16 * hexVal c1 + hexVal c2) :: hexPairsToBytes rest
  | _ => []

/-- Recover the embedded counter from a `FastGenerator` output: the
first 18 characters are the first three hyphen-separated groups, i.e.
the hex of the 8 little-endian counter bytes; strip the hyphens, decode
the bytes, and read them little-endian. -/
def recoverCounter (s : String) : Nat :=
  leUint64 (hexPairsToBytes ((s.data.take 18).filter (fun c => c ≠ '-')))

/-! ## Configuration merge and middleware adapters -/

/-- A Go `func() string` generator value as stored in a `Config` field:
`nil` is `Option.none`; the package generators and any custom function
are distinguished references. -/
inductive GenRef where
  | defaultGen
  | fastGen
  | custom (tag : Nat)
deriving DecidableEq, Repr

/-- `goctxid.Config` (src/goctxid.go lines 22-30): a header key and a
nilable generator function. -/
structure Config where
  HeaderKey : String
  Generator : Option GenRef
deriving DecidableEq, Repr

/-- The Go zero value of `Config`. -/
def zeroConfig : Config :=
  { HeaderKey := "", Generator := none }

/-- `configDefault` (src/adapters/gin/gin.go lines 9-28, identical in
src/adapters/fiber/fiber.go lines 21-40): start from the first supplied
config (or the zero value), then fill an empty `HeaderKey` with
`DefaultHeaderKey` and a `nil` `Generator` with
`goctxid.DefaultGenerator`. -/
def configDefault (config : List Config) : Config :=
  let cfg := match config with
    | [] => zeroConfig
    | c :: _ => c
  let cfg1 := if cfg.HeaderKey = "" then { cfg with HeaderKey := DefaultHeaderKey } else cfg
  if cfg1.Generator = none then { cfg1 with Generator := some GenRef.defaultGen } else cfg1

/-- `c.Get(key)` / `c.GetHeader(key)`: first value stored under the
header name, or `""` when the header is absent. -/
def headerGet (headers : List (String × String)) (k : String) : String :=
  match headers.find? (fun p => p.1 = k) with
  | some p => p.2
  | none => ""

/-- An inbound request as the adapters see it: its headers and the
per-request context the framework carries. -/
structure Request where
  headers : List (String × String)
  ctx : Context
deriving DecidableEq, Repr

/-- What one middleware invocation produces: the value set on the
response header under the configured key, and the context handed to the
next handler. -/
structure MwResult where
  responseHeader : String
  ctx : Context
deriving DecidableEq, Repr

/-- The gin middleware body (src/adapters/gin/gin.go lines 37-60):
read the header, generate when the read value is empty, set the
response header, and bind into the request context.  `gen` is the
string the configured generator returns when invoked on this
request. -/
def ginNew (headerKey : String) (gen : String) (req : Request) : MwResult :=
  let correlationID := headerGet req.headers headerKey
  let correlationID := if correlationID = "" then gen else correlationID
  { responseHeader := correlationID, ctx := NewContext req.ctx correlationID }

/-- The fiber middleware body (src/adapters/fiber/fiber.go lines
50-78).  `next? = some b` models a non-nil skip predicate `cfg.Next`
returning `b` on this request, `none` models `cfg.Next = nil`; when the
predicate fires the pipeline is skipped entirely (`none` result).
Otherwise the body is the same nine-step pipeline as gin, binding into
the fiber user context. -/
def fiberNew (next? : Option Bool) (headerKey : String) (gen : String)
    (req : Request) : Option MwResult :=
  match next? with
  | some true => none
  | _ =>
    let correlationID := headerGet req.headers headerKey
    let correlationID := if correlationID = "" then gen else correlationID
    some { responseHeader := correlationID, ctx := NewContext req.ctx correlationID }

/-- Result of the fibernative middleware: the response header value and
the fiber `Locals` store (most recent binding first). -/
structure FiberNativeResult where
  responseHeader : String
  locals : List (String × GoValue)
deriving DecidableEq, Repr

/-- The fibernative middleware body (src/adapters/fibernative/
fibernative.go lines 65-87), with no skip predicate firing: read the
header, generate when the read value is empty, set the response header,
and store the value in `c.Locals(localsKey)`. -/
def fibernativeNew (headerKey localsKey : String) (gen : String)
    (headers : List (String × String)) (locals : List (String × GoValue)) :
    FiberNativeResult :=
  let correlationID := headerGet headers headerKey
  let correlationID := if correlationID = "" then gen else correlationID
  { responseHeader := correlationID,
    locals := (localsKey, GoValue.str correlationID) :: locals }

/-- A lowercase hexadecimal digit character. -/
def isLowerHexDigit (c : Char) : Bool :=
  (('0' ≤ c && c ≤ '9') || ('a' ≤ c && c ≤ 'f'))

/-- The `8-4-4-4-12` shape: five all-lowercase-hex groups of lengths 8,
4, 4, 4 and 12 separated by single hyphens, 36 characters in all. -/
def uuidShape (s : String) : Prop :=
  s.length = 36 ∧
  ∃ g1 g2 g3 g4 g5 : List Char,
    s.data = g1 ++ '-' :: (g2 ++ '-' :: (g3 ++ '-' :: (g4 ++ '-' :: g5))) ∧
    g1.length = 8 ∧ g2.length = 4 ∧ g3.length = 4 ∧ g4.length = 4 ∧ g5.length = 12 ∧
    (g1 ++ g2 ++ g3 ++ g4 ++ g5).all isLowerHexDigit = true

/-- Modelled from the spec: the render step as claim C4 words it — a
lowercase-hexadecimal rendering of the given (16-byte) byte range,
grouped as 4/2/2/2/6 bytes separated by hyphens. -/
def renderGroups16 (bs : List Nat) : String :=
  String.mk (bytesHex (sliceBytes bs 0 4) ++
    '-' :: (bytesHex (sliceBytes bs 4 6) ++
      '-' :: (bytesHex (sliceBytes bs 6 8) ++
        '-' :: (bytesHex (sliceBytes bs 8 10) ++
          '-' :: bytesHex (sliceBytes bs 10 16)))))

/-! ## Theorems: identifier store and configuration -/

/-- C1: For every context `ctx` and every string `s` (including `""`),
`FromContext (NewContext ctx s) = (s, true)`, regardless of what was
previously bound in `ctx`; instantiating the same parent with two
different strings shows the two derived children each see only their
own value (no cross-talk). -/
theorem newContext_fromContext_roundtrip (parent : Context) (a b : String) :
    FromContext (NewContext parent a) = (a, true) ∧
    FromContext (NewContext parent b) = (b, true) := by
  constructor <;> simp [FromContext, NewContext, Context.value]

/-- C6: Whenever no string value sits under the correlation-ID key —
nothing bound, or a non-string value bound — `FromContext` returns
`("", false)` and `MustFromContext` returns `""` (both are total
functions, so neither can panic). -/
theorem fromContext_not_found (ctx : Context)
    (h : ∀ s, ctx.value ctxKey ≠ some (GoValue.str s)) :
    FromContext ctx = ("", false) ∧ MustFromContext ctx = "" := by
  cases hv : ctx.value ctxKey with
  | none => simp [FromContext, MustFromContext, hv]
  | some v =>
    cases v with
    | str s => exact absurd hv (h s)
    | nonString t => simp [FromContext, MustFromContext, hv]

/-- Witness for C6 at a context holding a non-string value under the
correlation-ID key. -/
theorem fromContext_not_found_witness :
    (∀ s, (Context.withValue Context.background ctxKey
        (GoValue.nonString 7)).value ctxKey ≠ some (GoValue.str s)) ∧
    (FromContext (Context.withValue Context.background ctxKey (GoValue.nonString 7)) =
        ("", false) ∧
      MustFromContext (Context.withValue Context.background ctxKey (GoValue.nonString 7)) =
        "") :=
  ⟨fun s => by simp [Context.value],
   fromContext_not_found _ (fun s => by simp [Context.value])⟩

/-- C9: `NewContext ctx id` only changes the binding under the private
correlation-ID key: any other key looks up to exactly what it did in
`ctx`; and for every `id` (including `""`) the derived context is
defined and carries `id` under the private key (no failure case). -/
theorem newContext_frame (ctx : Context) (id : String) (k : Key)
    (h : k ≠ ctxKey) :
    (NewContext ctx id).value k = ctx.value k ∧
    (NewContext ctx id).value ctxKey = some (GoValue.str id) := by
  constructor
  · simp [NewContext, Context.value, h]
  · simp [NewContext, Context.value]

/-- Witness for C9: a context carrying an unrelated user key keeps that
binding after `NewContext` with the empty string. -/
theorem newContext_frame_witness :
    (Key.other 0 "userkey" ≠ ctxKey) ∧
    ((NewContext (Context.withValue Context.background (Key.other 0 "userkey")
          (GoValue.str "v")) "").value (Key.other 0 "userkey") =
        (Context.withValue Context.background (Key.other 0 "userkey")
          (GoValue.str "v")).value (Key.other 0 "userkey") ∧
      (NewContext (Context.withValue Context.background (Key.other 0 "userkey")
          (GoValue.str "v")) "").value ctxKey = some (GoValue.str "")) :=
  ⟨by decide,
   newContext_frame (Context.withValue Context.background (Key.other 0 "userkey")
      (GoValue.str "v")) "" (Key.other 0 "userkey") (by decide)⟩

/-- C8: `configDefault` is a pure merge: the result's `HeaderKey` is the
supplied value when non-empty and `"X-Correlation-ID"` otherwise, and
the result's `Generator` is the supplied function when non-nil and the
secure default generator otherwise; in particular supplying nothing
yields both defaults, and supplying one field leaves the other at its
default. -/
theorem configDefault_merge (cfgs : List Config) :
    (configDefault cfgs).HeaderKey =
      (if (cfgs.headD zeroConfig).HeaderKey = "" then DefaultHeaderKey
        else (cfgs.headD zeroConfig).HeaderKey) ∧
    (configDefault cfgs).Generator =
      (if (cfgs.headD zeroConfig).Generator = none then some GenRef.defaultGen
        else (cfgs.headD zeroConfig).Generator) ∧
    configDefault [] =
      { HeaderKey := DefaultHeaderKey, Generator := some GenRef.defaultGen } := by
  refine ⟨?_, ?_, by rfl⟩ <;>
    cases cfgs with
    | nil => simp [configDefault, zeroConfig]
    | cons c rest =>
      by_cases h1 : c.HeaderKey = "" <;> by_cases h2 : c.Generator = none <;>
        simp [configDefault, h1, h2]

/-- Counterexample to C2 as stated: a request whose configured header is
present but carries the empty string.  The middleware does not echo
that present value (`""`) into the response header and context; it uses
the generator's output instead. -/
theorem middleware_echo_counterexample :
    (([(DefaultHeaderKey, "")] : List (String × String)).find?
        (fun p => p.1 = DefaultHeaderKey)).isSome = true ∧
    (ginNew DefaultHeaderKey "generated-id"
        { headers := [(DefaultHeaderKey, "")], ctx := Context.background }).responseHeader =
      "generated-id" ∧
    ginNew DefaultHeaderKey "generated-id"
        { headers := [(DefaultHeaderKey, "")], ctx := Context.background } ≠
      { responseHeader := "", ctx := NewContext Context.background "" } := by
  decide

/-- C2 (amended): with no skip predicate firing, if the configured
header is present with a non-empty value the middleware echoes it
unchanged into the response header and the request context; if it is
absent (or carries the empty string, which the header read cannot
distinguish from absence) the configured generator's output is used for
both; in both cases `FromContext` on the resulting context yields
exactly the response-header value — for the gin body and the fiber
body alike. -/
theorem middleware_pipeline (headerKey gen : String) (req : Request)
    (next? : Option Bool) (hskip : next? ≠ some true) :
    (headerGet req.headers headerKey ≠ "" →
      ginNew headerKey gen req =
        { responseHeader := headerGet req.headers headerKey,
          ctx := NewContext req.ctx (headerGet req.headers headerKey) }) ∧
    (headerGet req.headers headerKey = "" →
      ginNew headerKey gen req =
        { responseHeader := gen, ctx := NewContext req.ctx gen }) ∧
    FromContext (ginNew headerKey gen req).ctx =
      ((ginNew headerKey gen req).responseHeader, true) ∧
    fiberNew next? headerKey gen req = some (ginNew headerKey gen req) := by
  refine ⟨fun h => by simp [ginNew, h], fun h => by simp [ginNew, h], ?_, ?_⟩
  · by_cases h : headerGet req.headers headerKey = "" <;>
      simp [ginNew, h, FromContext, NewContext, Context.value]
  · cases next? with
    | none => rfl
    | some b =>
      cases b with
      | false => rfl
      | true => exact absurd rfl hskip

/-- Witness for C2 (amended) at a request carrying the default header
with value `"abc"`, generator output `"g"`, and no skip predicate. -/
theorem middleware_pipeline_witness :
    ((none : Option Bool) ≠ some true) ∧
    ((headerGet [(DefaultHeaderKey, "abc")] DefaultHeaderKey ≠ "" →
      ginNew DefaultHeaderKey "g"
          { headers := [(DefaultHeaderKey, "abc")], ctx := Context.background } =
        { responseHeader := headerGet [(DefaultHeaderKey, "abc")] DefaultHeaderKey,
          ctx := NewContext Context.background
            (headerGet [(DefaultHeaderKey, "abc")] DefaultHeaderKey) }) ∧
    (headerGet [(DefaultHeaderKey, "abc")] DefaultHeaderKey = "" →
      ginNew DefaultHeaderKey "g"
          { headers := [(DefaultHeaderKey, "abc")], ctx := Context.background } =
        { responseHeader := "g", ctx := NewContext Context.background "g" }) ∧
    FromContext (ginNew DefaultHeaderKey "g"
        { headers := [(DefaultHeaderKey, "abc")], ctx := Context.background }).ctx =
      ((ginNew DefaultHeaderKey "g"
        { headers := [(DefaultHeaderKey, "abc")], ctx := Context.background }).responseHeader,
        true) ∧
    fiberNew none DefaultHeaderKey "g"
        { headers := [(DefaultHeaderKey, "abc")], ctx := Context.background } =
      some (ginNew DefaultHeaderKey "g"
        { headers := [(DefaultHeaderKey, "abc")], ctx := Context.background })) :=
  ⟨by decide,
   middleware_pipeline DefaultHeaderKey "g"
     { headers := [(DefaultHeaderKey, "abc")], ctx := Context.background } none
     (by decide)⟩

/-- C10: a request whose configured header is present but carries the
empty string is treated by all three adapter bodies (gin, fiber,
fibernative) exactly like a request without the header: the generator
output is used for the response header and for the context / locals
binding, so an empty client-supplied identifier is never echoed or
bound — even though the store itself can bind the empty string. -/
theorem empty_header_like_absent (headerKey localsKey gen : String)
    (ctx : Context) (hs1 hs2 : List (String × String))
    (locals : List (String × GoValue))
    (h1 : hs1.find? (fun p => p.1 = headerKey) = some (headerKey, ""))
    (h2 : hs2.find? (fun p => p.1 = headerKey) = none) :
    ginNew headerKey gen { headers := hs1, ctx := ctx } =
      ginNew headerKey gen { headers := hs2, ctx := ctx } ∧
    ginNew headerKey gen { headers := hs1, ctx := ctx } =
      { responseHeader := gen, ctx := NewContext ctx gen } ∧
    fiberNew none headerKey gen { headers := hs1, ctx := ctx } =
      fiberNew none headerKey gen { headers := hs2, ctx := ctx } ∧
    fibernativeNew headerKey localsKey gen hs1 locals =
      fibernativeNew headerKey localsKey gen hs2 locals ∧
    fibernativeNew headerKey localsKey gen hs1 locals =
      { responseHeader := gen, locals := (localsKey, GoValue.str gen) :: locals } ∧
    FromContext (NewContext ctx "") = ("", true) := by
  have e1 : headerGet hs1 headerKey = "" := by simp [headerGet, h1]
  have e2 : headerGet hs2 headerKey = "" := by simp [headerGet, h2]
  refine ⟨?_, ?_, ?_, ?_, ?_, ?_⟩ <;>
    simp [ginNew, fiberNew, fibernativeNew, e1, e2, FromContext, NewContext,
      Context.value]

/-- Witness for C10 at a concrete request pair: header list
`[("X-Correlation-ID", "")]` versus no headers at all. -/
theorem empty_header_like_absent_witness :
    (([(DefaultHeaderKey, "")] : List (String × String)).find?
        (fun p => p.1 = DefaultHeaderKey) = some (DefaultHeaderKey, "")) ∧
    (([] : List (String × String)).find? (fun p => p.1 = DefaultHeaderKey) = none) ∧
    (ginNew DefaultHeaderKey "g" { headers := [(DefaultHeaderKey, "")], ctx := Context.background } =
      ginNew DefaultHeaderKey "g" { headers := [], ctx := Context.background } ∧
    ginNew DefaultHeaderKey "g" { headers := [(DefaultHeaderKey, "")], ctx := Context.background } =
      { responseHeader := "g", ctx := NewContext Context.background "g" } ∧
    fiberNew none DefaultHeaderKey "g"
        { headers := [(DefaultHeaderKey, "")], ctx := Context.background } =
      fiberNew none DefaultHeaderKey "g" { headers := [], ctx := Context.background } ∧
    fibernativeNew DefaultHeaderKey "goctxid" "g" [(DefaultHeaderKey, "")] [] =
      fibernativeNew DefaultHeaderKey "goctxid" "g" [] [] ∧
    fibernativeNew DefaultHeaderKey "goctxid" "g" [(DefaultHeaderKey, "")] [] =
      { responseHeader := "g", locals := [("goctxid", GoValue.str "g")] } ∧
    FromContext (NewContext Context.background "") = ("", true)) :=
  ⟨by decide, by decide,
   empty_header_like_absent DefaultHeaderKey "goctxid" "g" Context.background
     [(DefaultHeaderKey, "")] [] [] (by decide) (by decide)⟩

/-! ## Theorems: fast generator -/

/-- `PutUint64` always writes exactly 8 bytes. -/
theorem putUint64LE_length (x : Nat) : (putUint64LE x).length = 8 := rfl

/-- Every byte written by `PutUint64` is below 256. -/
theorem putUint64LE_bytes_lt (x : Nat) : ∀ b ∈ putUint64LE x, b < 256 := by
  intro b hb
  simp [putUint64LE] at hb
  rcases hb with rfl | rfl | rfl | rfl | rfl | rfl | rfl | rfl <;> omega

/-- Uint64/PutUint64 round trip: reading the 8 written bytes back
little-endian recovers the value modulo `2 ^ 64`. -/
theorem leUint64_putUint64LE (x : Nat) : leUint64 (putUint64LE x) = x % 2 ^ 64 := by
  have h : (2 : Nat) ^ 64 = 18446744073709551616 := by norm_num
  simp only [putUint64LE, leUint64, h]
  omega

/-- The seed is never written after initialization. -/
theorem fastGenRun_seed (seed : List Nat) : ∀ n, (fastGenRun seed n).seed = seed
  | 0 => rfl
  | n + 1 => by
    show (fastGeneratorStep (fastGenRun seed n)).2.seed = seed
    simp [fastGeneratorStep, fastGenRun_seed seed n]

/-- Counter trajectory: after `m` calls, one more post-increment yields
`c0 + m + 1` modulo `2 ^ 64`, where `c0` is the initial counter. -/
theorem fastGenRun_counter (seed : List Nat) :
    ∀ m, ((fastGenRun seed m).counter + 1) % 2 ^ 64 =
      (leUint64 (seed.take 8) + m + 1) % 2 ^ 64
  | 0 => by simp [fastGenRun, initFastGenerator]
  | m + 1 => by
    show ((((fastGenRun seed m).counter + 1) % 2 ^ 64 + 1) % 2 ^ 64) = _
    rw [fastGenRun_counter seed m, Nat.mod_add_mod]
    have harith : leUint64 (seed.take 8) + m + 1 + 1 =
        leUint64 (seed.take 8) + (m + 1) + 1 := by omega
    rw [harith]

/-- The `n`-th sequential output (`n ≥ 1`) is the format of the seed
with its first 8 bytes replaced by the little-endian encoding of
`c0 + n` modulo `2 ^ 64`. -/
theorem fastGenNthOutput_eq (seed : List Nat) (n : Nat) (hn : 1 ≤ n) :
    fastGenNthOutput seed n =
      formatUUID (putUint64LE ((leUint64 (seed.take 8) + n) % 2 ^ 64) ++
        seed.drop 8) := by
  obtain ⟨m, rfl⟩ : ∃ m, n = m + 1 := ⟨n - 1, by omega⟩
  show (fastGeneratorStep (fastGenRun seed (m + 1 - 1))).1 = _
  simp only [Nat.add_sub_cancel]
  show formatUUID (putUint64LE (((fastGenRun seed m).counter + 1) % 2 ^ 64) ++
      (fastGenRun seed m).seed.drop 8) = _
  rw [fastGenRun_counter seed m, fastGenRun_seed seed m]
  have harith : leUint64 (seed.take 8) + m + 1 = leUint64 (seed.take 8) + (m + 1) := by
    omega
  rw [harith]

/-- `bytesHex` produces two characters per byte. -/
theorem bytesHex_length (bs : List Nat) : (bytesHex bs).length = 2 * bs.length := by
  induction bs with
  | nil => rfl
  | cons b rest ih => simp [bytesHex, ih]; omega

/-- `bytesHex` distributes over concatenation. -/
theorem bytesHex_append (l1 l2 : List Nat) :
    bytesHex (l1 ++ l2) = bytesHex l1 ++ bytesHex l2 := by
  induction l1 with
  | nil => rfl
  | cons b rest ih => simp [bytesHex, ih]

/-- The hex table has sixteen entries. -/
theorem hexDigits_length : hexDigits.length = 16 := by decide

/-- `hexDigit` always lands in the sixteen lowercase hex digits. -/
theorem hexDigit_mem (n : Nat) : hexDigit n ∈ hexDigits := by
  unfold hexDigit
  rcases Nat.lt_or_ge n 16 with h | h
  · interval_cases n <;> decide
  · have hd : hexDigits.getD n '0' = '0' :=
      List.getD_eq_default _ _ (by rw [hexDigits_length]; exact h)
    rw [hd]
    decide

/-- Each entry of the hex table is a lowercase hex digit and is not the
hyphen separator. -/
theorem mem_hexDigits_props (c : Char) (h : c ∈ hexDigits) :
    isLowerHexDigit c = true ∧ c ≠ '-' := by
  have hall : ∀ x ∈ hexDigits, isLowerHexDigit x = true ∧ x ≠ '-' := by decide
  exact hall c h

/-- Every character emitted by `bytesHex` is a lowercase hex digit. -/
theorem isLowerHexDigit_hexDigit (n : Nat) : isLowerHexDigit (hexDigit n) = true :=
  (mem_hexDigits_props _ (hexDigit_mem n)).1

/-- `bytesHex` output passes the all-hex check. -/
theorem bytesHex_all_hex (bs : List Nat) :
    (bytesHex bs).all isLowerHexDigit = true := by
  induction bs with
  | nil => rfl
  | cons b rest ih => simp [bytesHex, ih, isLowerHexDigit_hexDigit]

/-- Hex digits are never the hyphen separator. -/
theorem hexDigit_ne_hyphen (n : Nat) : hexDigit n ≠ '-' :=
  (mem_hexDigits_props _ (hexDigit_mem n)).2

/-- No character emitted by `bytesHex` is the hyphen separator. -/
theorem bytesHex_ne_hyphen (bs : List Nat) : ∀ c ∈ bytesHex bs, c ≠ '-' := by
  induction bs with
  | nil => simp [bytesHex]
  | cons b rest ih =>
    intro c hc
    simp [bytesHex] at hc
    rcases hc with rfl | rfl | hc
    · exact hexDigit_ne_hyphen _
    · exact hexDigit_ne_hyphen _
    · exact ih c hc

/-- Stripping hyphens from `bytesHex` output changes nothing. -/
theorem bytesHex_filter (bs : List Nat) :
    (bytesHex bs).filter (fun c => c ≠ '-') = bytesHex bs := by
  rw [List.filter_eq_self]
  intro c hc
  simpa using bytesHex_ne_hyphen bs c hc

/-- `hexVal` inverts `hexDigit` on nibble values. -/
theorem hexVal_hexDigit (m : Nat) (h : m < 16) : hexVal (hexDigit m) = m := by
  interval_cases m <;> decide

/-- Decoding inverts `bytesHex` on byte lists. -/
theorem hexPairsToBytes_bytesHex (bs : List Nat) (h : ∀ b ∈ bs, b < 256) :
    hexPairsToBytes (bytesHex bs) = bs := by
  induction bs with
  | nil => rfl
  | cons b rest ih =>
    have hb : b < 256 := h b (by simp)
    have h1 : b / 16 < 16 := Nat.div_lt_of_lt_mul hb
    have h2 : b % 16 < 16 := Nat.mod_lt _ (by norm_num)
    show (16 * hexVal (hexDigit (b / 16)) + hexVal (hexDigit (b % 16))) ::
        hexPairsToBytes (bytesHex rest) = b :: rest
    rw [hexVal_hexDigit _ h1, hexVal_hexDigit _ h2,
      ih (fun c hc => h c (by simp [hc]))]
    congr 1
    omega

/-- Length of a Go slice of a sufficiently long buffer. -/
theorem sliceBytes_length (bs : List Nat) (lo hi : Nat) (h : hi ≤ bs.length) :
    (sliceBytes bs lo hi).length = hi - lo := by
  simp [sliceBytes]
  omega

/-- Slices that stay within the first 16 bytes ignore the rest of the
buffer. -/
theorem sliceBytes_take16 (id : List Nat) (lo hi : Nat) (h : hi ≤ 16) :
    sliceBytes (id.take 16) lo hi = sliceBytes id lo hi := by
  simp only [sliceBytes, List.drop_take, List.take_take]
  congr 1
  omega

/-- The format step reads only the first 16 bytes of the working
buffer. -/
theorem formatUUID_eq_renderGroups16 (id : List Nat) :
    formatUUID id = renderGroups16 (id.take 16) := by
  unfold formatUUID renderGroups16
  rw [sliceBytes_take16 id 0 4 (by norm_num), sliceBytes_take16 id 4 6 (by norm_num),
    sliceBytes_take16 id 6 8 (by norm_num), sliceBytes_take16 id 8 10 (by norm_num),
    sliceBytes_take16 id 10 16 (by norm_num)]

/-- A formatted buffer of at least 16 bytes is 36 characters long. -/
theorem formatUUID_length (id : List Nat) (h : 16 ≤ id.length) :
    (formatUUID id).length = 36 := by
  show (bytesHex (sliceBytes id 0 4) ++
    '-' :: (bytesHex (sliceBytes id 4 6) ++
      '-' :: (bytesHex (sliceBytes id 6 8) ++
        '-' :: (bytesHex (sliceBytes id 8 10) ++
          '-' :: bytesHex (sliceBytes id 10 16))))).length = 36
  simp only [List.length_append, List.length_cons, bytesHex_length,
    sliceBytes_length id 0 4 (by omega), sliceBytes_length id 4 6 (by omega),
    sliceBytes_length id 6 8 (by omega), sliceBytes_length id 8 10 (by omega),
    sliceBytes_length id 10 16 (by omega)]

/-- A formatted buffer of at least 16 bytes has the `8-4-4-4-12`
lowercase-hex hyphenated shape. -/
theorem formatUUID_shape (id : List Nat) (h : 16 ≤ id.length) :
    uuidShape (formatUUID id) := by
  refine ⟨formatUUID_length id h,
    bytesHex (sliceBytes id 0 4), bytesHex (sliceBytes id 4 6),
    bytesHex (sliceBytes id 6 8), bytesHex (sliceBytes id 8 10),
    bytesHex (sliceBytes id 10 16), rfl, ?_, ?_, ?_, ?_, ?_, ?_⟩
  · rw [bytesHex_length, sliceBytes_length id 0 4 (by omega)]
  · rw [bytesHex_length, sliceBytes_length id 4 6 (by omega)]
  · rw [bytesHex_length, sliceBytes_length id 6 8 (by omega)]
  · rw [bytesHex_length, sliceBytes_length id 8 10 (by omega)]
  · rw [bytesHex_length, sliceBytes_length id 10 16 (by omega)]
  · simp [List.all_append, bytesHex_all_hex]

/-- The formatted working buffer splits as an 18-character region
built from the first 8 (counter) bytes followed by the region built
from the seed remainder. -/
theorem front18_append (x : Nat) (s : List Nat) :
    (formatUUID (putUint64LE x ++ s)).data =
      (bytesHex (sliceBytes (putUint64LE x ++ s) 0 4) ++
        '-' :: (bytesHex (sliceBytes (putUint64LE x ++ s) 4 6) ++
          '-' :: bytesHex (sliceBytes (putUint64LE x ++ s) 6 8))) ++
      '-' :: (bytesHex (s.take 2) ++ '-' :: bytesHex ((s.drop 2).take 6)) := by
  show bytesHex (sliceBytes (putUint64LE x ++ s) 0 4) ++
      '-' :: (bytesHex (sliceBytes (putUint64LE x ++ s) 4 6) ++
        '-' :: (bytesHex (sliceBytes (putUint64LE x ++ s) 6 8) ++
          '-' :: (bytesHex (s.take 2) ++ '-' :: bytesHex ((s.drop 2).take 6)))) = _
  simp [List.append_assoc]

/-- The counter-derived region is exactly 18 characters. -/
theorem front18_length (x : Nat) (s : List Nat) :
    (bytesHex (sliceBytes (putUint64LE x ++ s) 0 4) ++
      '-' :: (bytesHex (sliceBytes (putUint64LE x ++ s) 4 6) ++
        '-' :: bytesHex (sliceBytes (putUint64LE x ++ s) 6 8))).length = 18 := rfl

/-- Characters 18 through 35 of a formatted working buffer depend only
on the seed remainder, not on the counter. -/
theorem formatUUID_drop18 (x : Nat) (s : List Nat) :
    (formatUUID (putUint64LE x ++ s)).data.drop 18 =
      '-' :: (bytesHex (s.take 2) ++ '-' :: bytesHex ((s.drop 2).take 6)) := by
  rw [front18_append x s, List.drop_left' (front18_length x s)]

/-- The first 18 characters of a formatted working buffer are the hex
of the counter bytes with two hyphens interleaved. -/
theorem formatUUID_take18 (x : Nat) (s : List Nat) :
    (formatUUID (putUint64LE x ++ s)).data.take 18 =
      bytesHex (sliceBytes (putUint64LE x ++ s) 0 4) ++
        '-' :: (bytesHex (sliceBytes (putUint64LE x ++ s) 4 6) ++
          '-' :: bytesHex (sliceBytes (putUint64LE x ++ s) 6 8)) := by
  rw [front18_append x s, List.take_left' (front18_length x s)]

/-- The counter embedded in a `FastGenerator` output is recoverable
from its first three groups. -/
theorem recoverCounter_formatUUID (x : Nat) (s : List Nat) (hx : x < 2 ^ 64) :
    recoverCounter (formatUUID (putUint64LE x ++ s)) = x := by
  unfold recoverCounter
  rw [formatUUID_take18 x s]
  simp only [List.filter_append, List.filter_cons, bytesHex_filter]
  norm_num
  have hcat : bytesHex (sliceBytes (putUint64LE x ++ s) 0 4) ++
      (bytesHex (sliceBytes (putUint64LE x ++ s) 4 6) ++
        bytesHex (sliceBytes (putUint64LE x ++ s) 6 8)) =
      bytesHex (putUint64LE x) := by
    rw [← bytesHex_append, ← bytesHex_append]
    rfl
  rw [hcat, hexPairsToBytes_bytesHex _ (putUint64LE_bytes_lt x),
    leUint64_putUint64LE]
  exact Nat.mod_eq_of_lt hx

/-- With a 24-byte seed every working buffer has 24 bytes. -/
theorem workBuffer_length (seed : List Nat) (x : Nat) (h : seed.length = 24) :
    (putUint64LE x ++ seed.drop 8).length = 24 := by
  simp [List.length_append, putUint64LE_length, List.length_drop, h]

/-- C3: after one-time initialization sets the counter to the
little-endian value `c0` of the seed's first 8 bytes, the `n`-th
sequential call (`n ≥ 1`) post-increments the counter to
`x = (c0 + n) mod 2^64` and returns the formatting of the 24-byte
working buffer whose first 8 bytes are `x` little-endian and whose
remaining 16 bytes are the seed's bytes 8..23. -/
theorem fastGenerator_counter_sequence (seed : List Nat) (n : Nat)
    (hseed : ValidSeed seed) (hn : 1 ≤ n) :
    fastGenNthOutput seed n =
      formatUUID (putUint64LE ((leUint64 (seed.take 8) + n) % 2 ^ 64) ++
        seed.drop 8) ∧
    (fastGenRun seed n).counter = (leUint64 (seed.take 8) + n) % 2 ^ 64 ∧
    (putUint64LE ((leUint64 (seed.take 8) + n) % 2 ^ 64) ++ seed.drop 8).length =
      24 := by
  refine ⟨fastGenNthOutput_eq seed n hn, ?_, workBuffer_length seed _ hseed.1⟩
  obtain ⟨m, rfl⟩ : ∃ m, n = m + 1 := ⟨n - 1, by omega⟩
  show ((fastGenRun seed m).counter + 1) % 2 ^ 64 = _
  rw [fastGenRun_counter seed m]
  have harith : leUint64 (seed.take 8) + m + 1 =
      leUint64 (seed.take 8) + (m + 1) := by omega
  rw [harith]

/-- Witness for C3: the second call on the seed `0, 1, ..., 23`. -/
theorem fastGenerator_counter_sequence_witness :
    ValidSeed (List.range 24) ∧ 1 ≤ 2 ∧
    (fastGenNthOutput (List.range 24) 2 =
      formatUUID (putUint64LE ((leUint64 ((List.range 24).take 8) + 2) % 2 ^ 64) ++
        (List.range 24).drop 8) ∧
    (fastGenRun (List.range 24) 2).counter =
      (leUint64 ((List.range 24).take 8) + 2) % 2 ^ 64 ∧
    (putUint64LE ((leUint64 ((List.range 24).take 8) + 2) % 2 ^ 64) ++
      (List.range 24).drop 8).length = 24) :=
  ⟨by decide, by decide,
   fastGenerator_counter_sequence (List.range 24) 2 (by decide) (by decide)⟩

/-- Counterexample to C4 as stated: two 24-byte working buffers (and
two runs of the generator on seeds) that differ in byte 23 yet format
to the same string — so the returned string is not a rendering of all
24 bytes of the working buffer; bytes 16..23 are never rendered. -/
theorem format_ignores_tail_bytes :
    formatUUID (putUint64LE 1 ++ List.replicate 16 0) =
      formatUUID (putUint64LE 1 ++ (List.replicate 15 0 ++ [9])) ∧
    putUint64LE 1 ++ List.replicate 16 0 ≠
      putUint64LE 1 ++ (List.replicate 15 0 ++ [9]) ∧
    (putUint64LE 1 ++ List.replicate 16 0).length = 24 ∧
    (putUint64LE 1 ++ (List.replicate 15 0 ++ [9])).length = 24 ∧
    fastGenNthOutput (List.replicate 24 0) 1 =
      fastGenNthOutput (List.replicate 23 0 ++ [9]) 1 ∧
    (List.replicate 24 0 : List Nat) ≠ List.replicate 23 0 ++ [9] ∧
    ValidSeed (List.replicate 24 0) ∧ ValidSeed (List.replicate 23 0 ++ [9]) := by
  decide

/-- C4 (amended): the returned string is the lowercase-hexadecimal
rendering of the first 16 bytes of the 24-byte working buffer, grouped
as 4/2/2/2/6 bytes separated by hyphens, 36 characters total. -/
theorem fastGenerator_renders_first16 (seed : List Nat) (n : Nat)
    (hseed : ValidSeed seed) (hn : 1 ≤ n) :
    fastGenNthOutput seed n =
      renderGroups16
        ((putUint64LE ((leUint64 (seed.take 8) + n) % 2 ^ 64) ++
          seed.drop 8).take 16) ∧
    (fastGenNthOutput seed n).length = 36 := by
  rw [fastGenNthOutput_eq seed n hn]
  refine ⟨formatUUID_eq_renderGroups16 _, formatUUID_length _ ?_⟩
  rw [workBuffer_length seed _ hseed.1]
  norm_num

/-- Witness for C4 (amended): the first call on the seed `0..23`. -/
theorem fastGenerator_renders_first16_witness :
    ValidSeed (List.range 24) ∧ 1 ≤ 1 ∧
    (fastGenNthOutput (List.range 24) 1 =
      renderGroups16
        ((putUint64LE ((leUint64 ((List.range 24).take 8) + 1) % 2 ^ 64) ++
          (List.range 24).drop 8).take 16) ∧
    (fastGenNthOutput (List.range 24) 1).length = 36) :=
  ⟨by decide, by decide,
   fastGenerator_renders_first16 (List.range 24) 1 (by decide) (by decide)⟩

/-- C5: every string returned by `FastGenerator` is exactly 36
characters: five lowercase-hex groups of lengths 8, 4, 4, 4, 12,
separated by single hyphens. -/
theorem fastGenerator_output_shape (seed : List Nat) (n : Nat)
    (hseed : ValidSeed seed) (hn : 1 ≤ n) :
    uuidShape (fastGenNthOutput seed n) := by
  rw [fastGenNthOutput_eq seed n hn]
  refine formatUUID_shape _ ?_
  rw [workBuffer_length seed _ hseed.1]
  norm_num

/-- Witness for C5: the first call on the seed `0..23`. -/
theorem fastGenerator_output_shape_witness :
    ValidSeed (List.range 24) ∧ 1 ≤ 1 ∧
    uuidShape (fastGenNthOutput (List.range 24) 1) :=
  ⟨by decide, by decide,
   fastGenerator_output_shape (List.range 24) 1 (by decide) (by decide)⟩

/-- C7: two consecutive sequential `FastGenerator` outputs agree from
character 18 (the third hyphen) to the end — in particular characters
19 through 35 — so they can differ only in the first three groups
(characters 0 through 17); both outputs are 36 characters, and the
embedded post-increment counter is recoverable from each output's
first three groups. -/
theorem fastGenerator_consecutive_region (seed : List Nat) (n : Nat)
    (hseed : ValidSeed seed) (hn : 1 ≤ n) :
    (fastGenNthOutput seed n).data.drop 18 =
      (fastGenNthOutput seed (n + 1)).data.drop 18 ∧
    (fastGenNthOutput seed n).length = 36 ∧
    (fastGenNthOutput seed (n + 1)).length = 36 ∧
    recoverCounter (fastGenNthOutput seed n) =
      (leUint64 (seed.take 8) + n) % 2 ^ 64 ∧
    recoverCounter (fastGenNthOutput seed (n + 1)) =
      (leUint64 (seed.take 8) + (n + 1)) % 2 ^ 64 := by
  rw [fastGenNthOutput_eq seed n hn, fastGenNthOutput_eq seed (n + 1) (by omega)]
  refine ⟨?_, formatUUID_length _ ?_, formatUUID_length _ ?_, ?_, ?_⟩
  · rw [formatUUID_drop18, formatUUID_drop18]
  · rw [workBuffer_length seed _ hseed.1]; norm_num
  · rw [workBuffer_length seed _ hseed.1]; norm_num
  · exact recoverCounter_formatUUID _ _ (Nat.mod_lt _ (by norm_num))
  · exact recoverCounter_formatUUID _ _ (Nat.mod_lt _ (by norm_num))

/-- Witness for C7: the first and second calls on the seed `0..23`. -/
theorem fastGenerator_consecutive_region_witness :
    ValidSeed (List.range 24) ∧ 1 ≤ 1 ∧
    ((fastGenNthOutput (List.range 24) 1).data.drop 18 =
      (fastGenNthOutput (List.range 24) (1 + 1)).data.drop 18 ∧
    (fastGenNthOutput (List.range 24) 1).length = 36 ∧
    (fastGenNthOutput (List.range 24) (1 + 1)).length = 36 ∧
    recoverCounter (fastGenNthOutput (List.range 24) 1) =
      (leUint64 ((List.range 24).take 8) + 1) % 2 ^ 64 ∧
    recoverCounter (fastGenNthOutput (List.range 24) (1 + 1)) =
      (leUint64 ((List.range 24).take 8) + (1 + 1)) % 2 ^ 64) :=
  ⟨by decide, by decide,
   fastGenerator_consecutive_region (List.range 24) 1 (by decide) (by decide)⟩

end Goctxid
